import Mathlib

/-!
Shallow embedding of the Hong Kong Old Style Mahjong engine of this repository
(`src/HKOSEngine_CORRECTED.js`, `src/hkosgame.js`, `src/game.js`), together with
proofs and refutations of the specification's claims about it.

JavaScript in-place mutation is rendered as explicit state passing, machine
numbers as `Nat`/`Int`, thrown errors as `Option`, and the string keys the
engine builds for tile comparison as genuine `String`s produced the same way.
-/

namespace Mahjong

/-- Tile suit field as used by `HKOSEngine_CORRECTED.js`:
`'B'`, `'C'`, `'D'` for the three suits, `'WIND'` and `'DRAGON'` for honors. -/
inductive Suit
  | B | C | D | WIND | DRAGON
deriving DecidableEq, Repr

/-- Wind names `'E'`, `'S'`, `'W'`, `'N'`. -/
inductive Wind
  | E | S | W | N
deriving DecidableEq, Repr

/-- Dragon names `'RED'`, `'GREEN'`, `'WHITE'`. -/
inductive Dragon
  | RED | GREEN | WHITE
deriving DecidableEq, Repr

/-- Tile `rank` field: a number 1-9 for suited tiles, a wind or dragon name
for honor tiles. -/
inductive Rank
  | num (n : Nat)
  | wind (w : Wind)
  | dragon (d : Dragon)
deriving DecidableEq, Repr

/-- Tile `type` field: `'SUITED'`, `'WIND'` or `'DRAGON'`. -/
inductive TileType
  | SUITED | WIND | DRAGON
deriving DecidableEq, Repr

/-- The string a suit contributes to a key (`tile.suit` interpolated). -/
def suitStr : Suit → String
  | .B => "B"
  | .C => "C"
  | .D => "D"
  | .WIND => "WIND"
  | .DRAGON => "DRAGON"

/-- The string `tile.rank.toString()` produces. -/
def rankStr : Rank → String
  | .num n => toString n
  | .wind .E => "E"
  | .wind .S => "S"
  | .wind .W => "W"
  | .wind .N => "N"
  | .dragon .RED => "RED"
  | .dragon .GREEN => "GREEN"
  | .dragon .WHITE => "WHITE"

/-- One physical tile, with the fields `createTileSet` puts on it. -/
structure Tile where
  suit : Suit
  rank : Rank
  type : TileType
  isTerminal : Bool
  isHonor : Bool
  id : String
deriving DecidableEq, Repr

/-- Meld `type` tags occurring in the repository: the four recognised by
`validateWinCount`, plus the tags `hkosgame.js` writes on melds it builds. -/
inductive MeldType
  | CHOW | PUNG | KONG | CONCEALED_KONG | KONG_CONCEALED | KONG_ADDED | KONG_EXPOSED
deriving DecidableEq, Repr

/-- An exposed meld: a `type` tag and its tiles.  The claimed-from seat tag some
melds carry is read by no modelled function and is omitted. -/
structure Meld where
  type : MeldType
  tiles : List Tile
deriving DecidableEq, Repr

/-- A hand as the engine receives it: concealed tiles plus exposed melds. -/
structure Hand where
  concealed : List Tile
  exposed : List Meld
deriving DecidableEq, Repr

/-- Engine constant `MIN_FAAN` (`config.engine_metadata.min_faan || 3`;
`hkmj-config.json` and the spec both fix it to 3). -/
def MIN_FAAN : Int := 3

/-- Engine constant `LIMIT_POINTS` (`config.engine_metadata.limit_points || 32`). -/
def LIMIT_POINTS : Int := 32

/-- Model of `HKOSEngine.calculatePoints` (HKOSEngine_CORRECTED.js 458-463):
0 below the minimum, capped at the limit from 13 Faan, else `2^(faan - MIN_FAAN)`. -/
def calculatePoints (faan : Int) : Int :=
  if faan < MIN_FAAN then 0
  else if faan ≥ 13 then LIMIT_POINTS
  else 2 ^ (faan - MIN_FAAN).toNat

/-- Model of `HKOSEngine.getTileKey` (line 434): `` `${rank}${suit}` `` for a
suited tile, the rank string for winds and dragons. -/
def getTileKey (t : Tile) : String :=
  if t.type = TileType.SUITED then rankStr t.rank ++ suitStr t.suit
  else rankStr t.rank

/-- Model of the inline key computation in `isThirteenOrphans` (lines 282-283):
the suit is appended only when it is not `'WIND'`/`'DRAGON'`, and the composite
key is used only for `'SUITED'` tiles. -/
def orphanKey (t : Tile) : String :=
  let key := rankStr t.rank ++
    (if t.suit ≠ Suit.WIND ∧ t.suit ≠ Suit.DRAGON then suitStr t.suit else "")
  if t.type = TileType.SUITED then key else rankStr t.rank

/-- The `required` list of `isThirteenOrphans` (lines 274-278). -/
def orphanRequired : List String :=
  ["1B", "9B", "1C", "9C", "1D", "9D", "E", "S", "W", "N", "RED", "GREEN", "WHITE"]

/-- Model of `HKOSEngine.isThirteenOrphans` (lines 267-299): fully concealed,
exactly 14 tiles, every required key present, and exactly one required key
counted twice. -/
def isThirteenOrphans (hand : Hand) : Bool :=
  if hand.exposed.length > 0 then false
  else if hand.concealed.length ≠ 14 then false
  else
    let keys := hand.concealed.map orphanKey
    if orphanRequired.all (fun k => keys.count k != 0) then
      orphanRequired.countP (fun k => keys.count k == 2) == 1
    else false

/-- Model of `HKOSEngine.isSevenPairs` (lines 305-321): fully concealed, exactly
14 tiles, and exactly 7 distinct keys whose count is exactly 2. -/
def isSevenPairs (hand : Hand) : Bool :=
  if hand.exposed.length > 0 then false
  else if hand.concealed.length ≠ 14 then false
  else
    let keys := hand.concealed.map getTileKey
    (keys.dedup.countP (fun k => keys.count k == 2)) == 7

/-- Model of `HKOSEngine.checkFullFlush` (lines 327-347): 7 Faan when every tile
(concealed and exposed) shares one non-honor suit. -/
def checkFullFlush (hand : Hand) : Nat :=
  let allTiles := hand.concealed ++ hand.exposed.flatMap (fun m => m.tiles)
  match (allTiles.map (fun t => t.suit)).dedup with
  | [s] => if s ≠ Suit.WIND ∧ s ≠ Suit.DRAGON then 7 else 0
  | _ => 0

/-- Model of `HKOSEngine.countDragonSets` (lines 352-363).  The source reads
`meld.tiles[0]`; an empty meld, which would fault in JS, matches nothing. -/
def countDragonSets (hand : Hand) : Nat :=
  hand.exposed.countP (fun m =>
    match m.tiles.head? with
    | some t => t.type == TileType.DRAGON &&
        (m.type == MeldType.PUNG || m.type == MeldType.KONG)
    | none => false)

/-- Scoring context handed to `calculateScore`: self-draw flag plus the seat and
prevailing winds (rank values, as `game.js` compares them against tile ranks). -/
structure ScoreContext where
  isSelfDraw : Bool
  seatWind : Rank
  prevailingWind : Rank
  winningTile : Option Tile := none
deriving DecidableEq, Repr

/-- Model of `HKOSEngine.checkWindSets` (lines 370-390): 2 Faan for a wind
pung/kong matching both winds, 1 for matching either. -/
def checkWindSets (hand : Hand) (context : ScoreContext) : Nat :=
  hand.exposed.foldl (fun totalFaan m =>
    match m.tiles.head? with
    | some t =>
      if t.type == TileType.WIND &&
          (m.type == MeldType.PUNG || m.type == MeldType.KONG) then
        let matchesSeat := t.rank == context.seatWind
        let matchesPrevailing := t.rank == context.prevailingWind
        if matchesSeat && matchesPrevailing then totalFaan + 2
        else if matchesSeat || matchesPrevailing then totalFaan + 1
        else totalFaan
      else totalFaan
    | none => totalFaan) 0

/-- Model of `HKOSEngine.isAllChows` (lines 396-413). -/
def isAllChows (hand : Hand) : Bool :=
  if hand.exposed.any (fun m => m.type != MeldType.CHOW) then false
  else
    let allTiles := hand.concealed ++ hand.exposed.flatMap (fun m => m.tiles)
    if allTiles.any (fun t => t.isHonor || t.isTerminal) then false
    else hand.exposed.length > 0

/-- Model of `HKOSEngine.countTerminalSets` (lines 418-429). -/
def countTerminalSets (hand : Hand) : Nat :=
  hand.exposed.countP (fun m =>
    (m.type == MeldType.PUNG || m.type == MeldType.KONG) &&
      (match m.tiles.head? with
       | some t => t.isTerminal
       | none => false))

/-- One line of a score breakdown. -/
structure ScorePattern where
  pattern : String
  faan : Nat
deriving DecidableEq, Repr

/-- Result object of `calculateScore`. -/
structure ScoreResult where
  isValid : Bool
  totalFaan : Nat
  points : Int
  breakdown : List ScorePattern
deriving DecidableEq, Repr

/-- Model of `HKOSEngine.calculateScore` (lines 170-260): special hands
short-circuit, otherwise the pattern Faan accumulate in source order. -/
def calculateScore (hand : Hand) (context : ScoreContext) : ScoreResult :=
  if isThirteenOrphans hand then
    { isValid := decide ((13 : Int) ≥ MIN_FAAN), totalFaan := 13,
      points := calculatePoints 13,
      breakdown := [⟨"Thirteen Orphans", 13⟩] }
  else if isSevenPairs hand then
    { isValid := decide ((4 : Int) ≥ MIN_FAAN), totalFaan := 4,
      points := calculatePoints 4,
      breakdown := [⟨"Seven Pairs", 4⟩] }
  else
    let flushFaan := checkFullFlush hand
    let dragonFaan := countDragonSets hand
    let windFaan := checkWindSets hand context
    let allChowsFaan : Nat := if isAllChows hand then 1 else 0
    let terminalFaan := countTerminalSets hand
    let selfDrawFaan : Nat := if context.isSelfDraw then 1 else 0
    let totalFaan := flushFaan + dragonFaan + windFaan + allChowsFaan +
      terminalFaan + selfDrawFaan
    { isValid := decide ((totalFaan : Int) ≥ MIN_FAAN),
      totalFaan := totalFaan,
      points := calculatePoints (totalFaan : Int),
      breakdown :=
        (if flushFaan > 0 then [⟨"Full Flush", flushFaan⟩] else []) ++
        (if dragonFaan > 0 then
          [⟨"Dragon Sets (x" ++ toString dragonFaan ++ ")", dragonFaan⟩] else []) ++
        (if windFaan > 0 then [⟨"Wind Sets", windFaan⟩] else []) ++
        (if allChowsFaan > 0 then [⟨"All Chows", 1⟩] else []) ++
        (if terminalFaan > 0 then
          [⟨"Terminal Sets (x" ++ toString terminalFaan ++ ")", terminalFaan⟩] else []) ++
        (if context.isSelfDraw then [⟨"Self-Draw", 1⟩] else []) }

/-- Meld-counting loop of `validateWinCount` (lines 140-149), accumulating
(total exposed tiles, kong count); `none` models the thrown
`Unknown meld type` error. -/
def countMeldTiles : List Meld → Option (Nat × Nat)
  | [] => some (0, 0)
  | m :: rest =>
    match m.type with
    | .KONG => (countMeldTiles rest).map (fun p => (p.1 + 4, p.2 + 1))
    | .CONCEALED_KONG => (countMeldTiles rest).map (fun p => (p.1 + 4, p.2 + 1))
    | .PUNG => (countMeldTiles rest).map (fun p => (p.1 + 3, p.2))
    | .CHOW => (countMeldTiles rest).map (fun p => (p.1 + 3, p.2))
    | _ => none

/-- Model of `HKOSEngine.validateWinCount` (lines 135-154): the physical tile
total must equal `14 + kongCount`. -/
def validateWinCount (hand : Hand) : Option Bool :=
  (countMeldTiles hand.exposed).map
    (fun p => hand.concealed.length + p.1 == 14 + p.2)

/-- Claim `type` tags as built by `game.js` `checkClaims`. -/
inductive ClaimType
  | WIN | PUNG | KONG | CHOW
deriving DecidableEq, Repr

/-- The slice of the player object `resolveClaims` reads:
`claim.player.position` and `claim.player.isFuriten`. -/
structure ClaimPlayer where
  position : Nat
  isFuriten : Bool
deriving DecidableEq, Repr

/-- A claim as assembled by `game.js` `checkClaims` (lines 135-176): type,
numeric priority, the claiming player, counter-clockwise distance from the
discarder, and (for WIN claims) the hand's Faan. -/
structure Claim where
  type : ClaimType
  priority : Int
  player : ClaimPlayer
  distance : Int
  faan : Int := 0
deriving DecidableEq, Repr

/-- The context object passed to `resolveClaims`. -/
structure ClaimContext where
  discarderPosition : Nat
deriving DecidableEq, Repr

/-- Model of `HKOSEngine.getClaimPriority` (lines 539-547) on the four claim
kinds. -/
def getClaimPriority : ClaimType → Int
  | .WIN => 1
  | .PUNG => 2
  | .KONG => 2
  | .CHOW => 3

/-- Model of `MahjongGame.getDistance` (game.js 454-456): counter-clockwise
seats from the discarder. -/
def getDistance (f t : Int) : Int :=
  (t - f + 4) % 4

/-- The validity filter inside `resolveClaims` (lines 500-520): WIN needs the
claimant not Furiten and at least `MIN_FAAN`; CHOW needs the seat after the
discarder; PUNG/KONG pass from any seat. -/
def validClaim (context : ClaimContext) (claim : Claim) : Bool :=
  match claim.type with
  | .WIN =>
    if claim.player.isFuriten then false
    else if claim.faan < MIN_FAAN then false
    else true
  | .CHOW =>
    claim.player.position == (context.discarderPosition + 1) % 4
  | _ => true

/-- Ordering induced by the sort comparator in `resolveClaims` (lines 526-531):
`claimLE a b` holds when the comparator puts `a` at or before `b`, i.e. lower
priority number first, then lower distance. -/
def claimLE (a b : Claim) : Prop :=
  a.priority < b.priority ∨ (a.priority = b.priority ∧ a.distance ≤ b.distance)

instance : DecidableRel claimLE := fun a b => by
  unfold claimLE; infer_instance

instance : IsTotal Claim claimLE :=
  ⟨by intro a b; unfold claimLE; omega⟩

instance : IsTrans Claim claimLE :=
  ⟨by intro a b c; unfold claimLE; omega⟩

/-- Model of `HKOSEngine.resolveClaims` (lines 496-534): filter the valid
claims, stable-sort them by the priority-then-distance comparator
(`Array.prototype.sort` is stable per ECMAScript 2019; `List.insertionSort` is
the stable sort on lists), and return the first survivor, or `null`. -/
def resolveClaims (claims : List Claim) (context : ClaimContext) : Option Claim :=
  if claims.isEmpty then none
  else
    let validClaims := claims.filter (validClaim context)
    if validClaims.isEmpty then none
    else (List.insertionSort claimLE validClaims).head?

/-- Action `type` tags that reach `updateFuriten` or the audit log. -/
inductive FActionType
  | DECLINE_WIN | DISCARD | DRAW | KONG | CLAIM | WIN | GAME_START
deriving DecidableEq, Repr

/-- An action object as passed to `updateFuriten`; `tile` and `turn` are only
populated by the `DECLINE_WIN` call sites. -/
structure FAction where
  type : FActionType
  tile : Option Tile := none
  turn : Option Nat := none
deriving DecidableEq, Repr

/-- One record pushed onto `furitenState.declinedTiles`. -/
structure DeclinedTile where
  tile : Option Tile
  turn : Option Nat
deriving DecidableEq, Repr

/-- The `furitenState` sub-object of a player. -/
structure FuritenState where
  isActive : Bool
  declinedTiles : List DeclinedTile
  activatedTurn : Option Nat
deriving DecidableEq, Repr

/-- The fresh `furitenState` object `updateFuriten` creates lazily. -/
def initFuritenState : FuritenState :=
  { isActive := false, declinedTiles := [], activatedTurn := none }

/-- The fields of a player that `updateFuriten` touches; `furitenState` is
`none` until lazily initialised, as in the source. -/
structure FPlayer where
  isFuriten : Bool
  furitenState : Option FuritenState
deriving DecidableEq, Repr

/-- Model of `HKOSEngine.updateFuriten` (lines 571-593) as a pure state
transition: `DECLINE_WIN` raises the flag and records the declined tile and
turn, `DISCARD` resets the flag, anything else only performs the lazy
initialisation. -/
def updateFuriten (player : FPlayer) (action : FAction) : FPlayer :=
  let fs := player.furitenState.getD initFuritenState
  if action.type = FActionType.DECLINE_WIN then
    { isFuriten := true,
      furitenState := some
        { isActive := true,
          declinedTiles := fs.declinedTiles ++ [⟨action.tile, action.turn⟩],
          activatedTurn := action.turn } }
  else if action.type = FActionType.DISCARD then
    { isFuriten := false,
      furitenState := some { fs with isActive := false } }
  else
    { player with furitenState := some fs }

/-- Game phases of `hkosgame.js`. -/
inductive GamePhase
  | WAITING | DEALING | PLAYING | CLAIMING | ENDED
deriving DecidableEq, Repr

/-- A player record as built by the `HKOSGame` constructor (hkosgame.js 30-43). -/
structure HPlayer where
  id : String
  name : String
  isAI : Bool
  wind : Wind
  position : Nat
  concealed : List Tile
  exposed : List Meld
  discards : List Tile
  score : Int
  isFuriten : Bool
  furitenTile : Option Tile
  lastDraw : Option Tile
deriving DecidableEq, Repr

/-- Kong variants passed to `executeKong`/`handleKong`. -/
inductive KongType
  | CONCEALED | ADDED | EXPOSED
deriving DecidableEq, Repr

/-- Audit-log entries written by the modelled `HKOSGame` methods; the
`timestamp` is the environment's `Date.now()`. -/
inductive MoveLog
  | discardMove (player : Fin 4) (tile : Tile) (timestamp : Nat)
  | kongMove (player : Fin 4) (kongType : KongType) (tile : Tile)
      (replacement : Tile) (timestamp : Nat)
  | exhaustiveDraw (timestamp : Nat)
deriving DecidableEq, Repr

/-- One record of `discardHistory`. -/
structure DiscardRec where
  player : Fin 4
  tile : Tile
  turn : Nat
deriving DecidableEq, Repr

/-- A pending claim as stored by `HKOSGame.submitClaim`; only carried, never
read, by the methods modelled here. -/
structure GClaim where
  type : String
  playerPosition : Fin 4
  tile : Option Tile
deriving DecidableEq, Repr

/-- The `HKOSGame` aggregate state (constructor, hkosgame.js 12-53).  Seats are
`Fin 4`; the four players live in a total map over seats. -/
structure HGameState where
  gameId : String
  state : GamePhase
  prevailingWind : Wind
  dealerPosition : Fin 4
  currentPlayer : Fin 4
  currentRound : Nat
  consecutiveDraws : Nat
  liveWall : List Tile
  deadWall : List Tile
  drawPointer : Nat
  players : Fin 4 → HPlayer
  pendingClaims : List GClaim
  lastDiscard : Option Tile
  lastDiscarder : Option (Fin 4)
  moveHistory : List MoveLog
  discardHistory : List DiscardRec

/-- Result object returned by the modelled `HKOSGame` methods.  The JS results
additionally carry `getPublicGameState()` of the state being returned. -/
structure ActionResult where
  success : Bool
  reason : Option String := none
  result : Option String := none
  tile : Option Tile := none
  replacementTile : Option Tile := none
  canWin : Option Bool := none
deriving DecidableEq, Repr

/-- The two walls as handed to `handleKong` by reference. -/
structure WallPair where
  deadWall : List Tile
  liveWall : List Tile
deriving DecidableEq, Repr

/-- Outcome of a kong replacement draw. -/
inductive KongDraw
  | exhaustive
  | replacement (tile : Tile)
deriving DecidableEq, Repr

/-- Modelled from the spec: `HKOSEngine.handleKong` is implemented in
`HKOSEngine.js`, which is absent from the sources (only its caller
`hkosgame.js` is present).  Per spec sections 3, 4.6 and 8, a kong draws its
replacement tile from the dead wall, consumed back-to-front by a monotonically
advancing pointer, and an exhausted dead wall yields an exhaustive draw; the
walls are mutated in place, which the caller observes. -/
def handleKong (walls : WallPair) (kongType : KongType) : KongDraw × WallPair :=
  match walls.deadWall.getLast? with
  | none => (KongDraw.exhaustive, walls)
  | some t => (KongDraw.replacement t, { walls with deadWall := walls.deadWall.dropLast })

/-- Modelled from the spec: `HKOSEngine.resetFuriten` is implemented in the
absent `HKOSEngine.js`.  Per spec section 4.5 a player's own discard
unconditionally resets `isFuriten` to false. -/
def resetFuriten (p : HPlayer) : HPlayer :=
  { p with isFuriten := false }

/-- Result object of a win-condition evaluation. -/
structure WinCheck where
  valid : Bool
  totalFaan : Nat := 0
  points : Int := 0
deriving DecidableEq, Repr

/-- Modelled from the spec: `HKOSEngine.evaluateWinCondition` is implemented in
the absent `HKOSEngine.js`.  Per spec sections 4.2-4.4 a win requires the
structural count check on the hand completed by the candidate tile, a score of
at least `MIN_FAAN`, and the claimant not Furiten; this mirrors
`checkWinPossibility` in `game.js` (lines 192-220). -/
def evaluateWinCondition (p : HPlayer) (tile : Tile) (prevailingWind : Wind)
    (isSelfDraw : Bool) : WinCheck :=
  let hand : Hand := { concealed := p.concealed ++ [tile], exposed := p.exposed }
  if validateWinCount hand ≠ some true then
    { valid := false }
  else
    let score := calculateScore hand
      { isSelfDraw := isSelfDraw, seatWind := Rank.wind p.wind,
        prevailingWind := Rank.wind prevailingWind, winningTile := some tile }
    if score.isValid && !p.isFuriten then
      { valid := true, totalFaan := score.totalFaan, points := score.points }
    else
      { valid := false }

/-- The JS `concealed.sort()` with the default comparator: tile objects all
stringify identically, so the stable sort leaves the order unchanged. -/
def sortTiles (l : List Tile) : List Tile := l

/-- The `indexOf` / `splice(idx, 1)` idiom: remove the first occurrence of a
tile when present, otherwise leave the list alone. -/
def removeFirst (l : List Tile) (t : Tile) : List Tile :=
  match l.indexOf? t with
  | none => l
  | some i => l.eraseIdx i

/-- The `for` loop of the concealed-kong branch: `indexOf` + `splice` repeated
`n` times. -/
def removeN (l : List Tile) (t : Tile) : Nat → List Tile
  | 0 => l
  | n + 1 => removeN (removeFirst l t) t n

/-- Model of `HKOSGame.handleExhaustiveDraw` (hkosgame.js 552-567). -/
def handleExhaustiveDraw (g : HGameState) (now : Nat) : ActionResult × HGameState :=
  ({ success := true, result := some "DRAW",
     reason := some "Exhaustive draw - wall depleted" },
   { g with state := GamePhase.ENDED,
            moveHistory := g.moveHistory ++ [MoveLog.exhaustiveDraw now] })

/-- Model of `HKOSGame.executeDiscard` (hkosgame.js 181-227) with the in-place
mutation made explicit; `now` is the environment's clock. -/
def executeDiscard (g : HGameState) (playerPosition : Fin 4) (tile : Tile)
    (now : Nat) : ActionResult × HGameState :=
  if g.currentPlayer ≠ playerPosition then
    ({ success := false, reason := some "Not your turn" }, g)
  else
    let player := g.players playerPosition
    match player.concealed.indexOf? tile with
    | none => ({ success := false, reason := some "Tile not in hand" }, g)
    | some tileIndex =>
      let player :=
        { player with concealed := player.concealed.eraseIdx tileIndex,
                      discards := player.discards ++ [tile] }
      let player := resetFuriten player
      ({ success := true, tile := some tile },
       { g with
          players := Function.update g.players playerPosition player,
          lastDiscard := some tile,
          lastDiscarder := some playerPosition,
          moveHistory := g.moveHistory ++ [MoveLog.discardMove playerPosition tile now],
          discardHistory := g.discardHistory ++
            [{ player := playerPosition, tile := tile,
               turn := g.moveHistory.length + 1 }],
          state := GamePhase.CLAIMING,
          pendingClaims := [] })

/-- Model of `HKOSGame.executeKong` (hkosgame.js 236-314).  Note the source
order: the replacement draw via `handleKong` mutates the walls before the
ADDED-kong branch looks for a pung to upgrade. -/
def executeKong (g : HGameState) (playerPosition : Fin 4) (kongType : KongType)
    (tile : Tile) (now : Nat) : ActionResult × HGameState :=
  if g.currentPlayer ≠ playerPosition then
    ({ success := false, reason := some "Not your turn" }, g)
  else
    let player := g.players playerPosition
    match handleKong { deadWall := g.deadWall, liveWall := g.liveWall } kongType with
    | (KongDraw.exhaustive, walls) =>
      handleExhaustiveDraw
        { g with deadWall := walls.deadWall, liveWall := walls.liveWall } now
    | (KongDraw.replacement rt, walls) =>
      let g := { g with deadWall := walls.deadWall, liveWall := walls.liveWall }
      let surgery : Option HPlayer :=
        match kongType with
        | .CONCEALED =>
          some { player with
            concealed := removeN player.concealed tile 4,
            exposed := player.exposed ++
              [{ type := MeldType.KONG_CONCEALED, tiles := [tile, tile, tile, tile] }] }
        | .ADDED =>
          match player.exposed.findIdx?
              (fun m => m.type == MeldType.PUNG && m.tiles.head? == some tile) with
          | none => none
          | some pungIndex =>
            some { player with
              exposed := player.exposed.set pungIndex
                { type := MeldType.KONG_ADDED, tiles := [tile, tile, tile, tile] },
              concealed := removeFirst player.concealed tile }
        | .EXPOSED => some player
      match surgery with
      | none => ({ success := false, reason := some "No pung found to upgrade" }, g)
      | some player =>
        let player := { player with
          concealed := sortTiles (player.concealed ++ [rt]),
          lastDraw := some rt }
        let g := { g with
          players := Function.update g.players playerPosition player,
          moveHistory := g.moveHistory ++
            [MoveLog.kongMove playerPosition kongType tile rt now] }
        let winCheck := evaluateWinCondition player rt g.prevailingWind true
        ({ success := true, replacementTile := some rt,
           canWin := some winCheck.valid }, g)

/-- The public projection of one player (hkosgame.js 604-615): the concealed
hand appears only as `concealedCount`. -/
structure PublicPlayer where
  id : String
  name : String
  isAI : Bool
  wind : Wind
  position : Nat
  concealedCount : Nat
  exposed : List Meld
  discards : List Tile
  score : Int
  isFuriten : Bool
deriving DecidableEq, Repr

/-- The object returned by `getPublicGameState`. -/
structure PublicGameState where
  gameId : String
  state : GamePhase
  round : Nat
  prevailingWind : Wind
  currentPlayer : Fin 4
  dealer : Fin 4
  liveWallRemaining : Nat
  deadWallRemaining : Nat
  lastDiscard : Option Tile
  lastDiscarder : Option (Fin 4)
  players : List PublicPlayer
deriving DecidableEq, Repr

/-- The per-player mapping inside `getPublicGameState`. -/
def publicPlayer (p : HPlayer) : PublicPlayer :=
  { id := p.id, name := p.name, isAI := p.isAI, wind := p.wind,
    position := p.position, concealedCount := p.concealed.length,
    exposed := p.exposed, discards := p.discards, score := p.score,
    isFuriten := p.isFuriten }

/-- Model of `HKOSGame.getPublicGameState` (hkosgame.js 592-617). -/
def getPublicGameState (g : HGameState) : PublicGameState :=
  { gameId := g.gameId, state := g.state, round := g.currentRound,
    prevailingWind := g.prevailingWind, currentPlayer := g.currentPlayer,
    dealer := g.dealerPosition, liveWallRemaining := g.liveWall.length,
    deadWallRemaining := g.deadWall.length, lastDiscard := g.lastDiscard,
    lastDiscarder := g.lastDiscarder,
    players := (List.finRange 4).map (fun i => publicPlayer (g.players i)) }

/-- Actions offered to the acting seat. -/
inductive PlayerAction
  | DISCARD
  | KONG_CONCEALED_ACTION (tile : Tile)
  | KONG_ADDED_ACTION (tile : Tile)
  | WIN
deriving DecidableEq, Repr

/-- Modelled from the spec: `HKOSEngine.actionPhase` is implemented in the
absent `HKOSEngine.js`.  Per spec section 4.6, on their turn a player may
always discard, may declare a concealed kong when holding four copies of a
tile, may upgrade an exposed pung whose fourth tile they hold, and is offered
a self-win when the evaluator validates the completed hand after the draw. -/
def actionPhase (p : HPlayer) (prevailingWind : Wind) (lastDraw : Option Tile) :
    List PlayerAction :=
  [PlayerAction.DISCARD] ++
  ((p.concealed.dedup.filter (fun t => decide (4 ≤ p.concealed.count t))).map
    PlayerAction.KONG_CONCEALED_ACTION) ++
  (p.exposed.filterMap (fun m =>
    match m.tiles.head? with
    | some t =>
      if m.type == MeldType.PUNG && p.concealed.contains t then
        some (PlayerAction.KONG_ADDED_ACTION t)
      else none
    | none => none)) ++
  (match lastDraw with
   | some _ =>
     let hand : Hand := { concealed := p.concealed, exposed := p.exposed }
     if validateWinCount hand == some true &&
         (calculateScore hand
           { isSelfDraw := true, seatWind := Rank.wind p.wind,
             prevailingWind := Rank.wind prevailingWind }).isValid &&
         !p.isFuriten then
       [PlayerAction.WIN]
     else []
   | none => [])

/-- The object returned by `getPrivatePlayerState`. -/
structure PrivatePlayerState where
  concealed : List Tile
  lastDraw : Option Tile
  availableActions : List PlayerAction
deriving DecidableEq, Repr

/-- Model of `HKOSGame.getPrivatePlayerState` (hkosgame.js 624-637): one seat's
own concealed tiles, last draw, and (on that seat's turn) available actions. -/
def getPrivatePlayerState (g : HGameState) (playerPosition : Fin 4) :
    PrivatePlayerState :=
  let player := g.players playerPosition
  { concealed := player.concealed,
    lastDraw := player.lastDraw,
    availableActions :=
      if g.state = GamePhase.PLAYING ∧ g.currentPlayer = playerPosition then
        actionPhase player g.prevailingWind player.lastDraw
      else [] }

/-! ## Concrete fixtures -/

/-- Tile constructor mirroring the suited branch of `createTileSet` (47-64). -/
def suitedTile (n : Nat) (s : Suit) (copy : Nat) : Tile :=
  { suit := s, rank := Rank.num n, type := TileType.SUITED,
    isTerminal := n == 1 || n == 9, isHonor := false,
    id := toString n ++ suitStr s ++ "-" ++ toString copy }

/-- Tile constructor mirroring the wind branch of `createTileSet` (67-78). -/
def windTile (w : Wind) (copy : Nat) : Tile :=
  { suit := Suit.WIND, rank := Rank.wind w, type := TileType.WIND,
    isTerminal := false, isHonor := true,
    id := rankStr (Rank.wind w) ++ "-" ++ toString copy }

/-- Tile constructor mirroring the dragon branch of `createTileSet` (81-92). -/
def dragonTile (d : Dragon) (copy : Nat) : Tile :=
  { suit := Suit.DRAGON, rank := Rank.dragon d, type := TileType.DRAGON,
    isTerminal := false, isHonor := true,
    id := rankStr (Rank.dragon d) ++ "-" ++ toString copy }

/-- The claim-resolution scenario of spec section 8: a discard from seat 0. -/
def discardFromSeat0 : ClaimContext := ⟨0⟩

/-- A WIN claim from seat 2 at distance 2 with 3 Faan. -/
def winSeat2Claim : Claim :=
  { type := .WIN, priority := 1, player := ⟨2, false⟩, distance := 2, faan := 3 }

/-- A PUNG claim from seat 1 at distance 1. -/
def pungSeat1Claim : Claim :=
  { type := .PUNG, priority := 2, player := ⟨1, false⟩, distance := 1 }

/-- A KONG claim from the same seat 1 at the same distance 1: it ties with
`pungSeat1Claim` on both priority and distance yet is a distinct claim. -/
def kongSeat1Claim : Claim :=
  { type := .KONG, priority := 2, player := ⟨1, false⟩, distance := 1 }

/-! ## Claim arbiter lemmas -/

theorem claimLE_refl (a : Claim) : claimLE a a :=
  Or.inr ⟨rfl, le_refl _⟩

/-- The engine's claim resolution is: stable-sort the valid claims and take the
head. -/
theorem resolveClaims_eq (claims : List Claim) (context : ClaimContext) :
    resolveClaims claims context =
      (List.insertionSort claimLE (claims.filter (validClaim context))).head? := by
  unfold resolveClaims
  split
  · next h =>
    rw [List.isEmpty_iff.mp h]
    simp
  · dsimp only
    split
    · next h =>
      rw [List.isEmpty_iff.mp h]
      simp
    · rfl

theorem resolveClaims_mem {claims : List Claim} {context : ClaimContext}
    {w : Claim} (h : resolveClaims claims context = some w) :
    w ∈ claims.filter (validClaim context) := by
  rw [resolveClaims_eq] at h
  have hmem : w ∈ List.insertionSort claimLE (claims.filter (validClaim context)) := by
    cases hl : List.insertionSort claimLE (claims.filter (validClaim context)) with
    | nil => rw [hl] at h; exact absurd h (by simp)
    | cons a t =>
      rw [hl] at h
      simp only [List.head?_cons, Option.some.injEq] at h
      rw [← h]
      exact List.mem_cons_self a t
  exact (List.perm_insertionSort claimLE _).mem_iff.mp hmem

theorem resolveClaims_min {claims : List Claim} {context : ClaimContext}
    {w : Claim} (h : resolveClaims claims context = some w) :
    ∀ c ∈ claims.filter (validClaim context), claimLE w c := by
  rw [resolveClaims_eq] at h
  intro c hc
  have hcs : c ∈ List.insertionSort claimLE (claims.filter (validClaim context)) :=
    (List.perm_insertionSort claimLE _).mem_iff.mpr hc
  have hsorted := List.sorted_insertionSort claimLE (claims.filter (validClaim context))
  cases hl : List.insertionSort claimLE (claims.filter (validClaim context)) with
  | nil => rw [hl] at hcs; exact absurd hcs (by simp)
  | cons a t =>
    rw [hl] at h hcs hsorted
    simp only [List.head?_cons, Option.some.injEq] at h
    subst h
    rcases List.mem_cons.mp hcs with rfl | hct
    · exact claimLE_refl c
    · exact List.rel_of_sorted_cons hsorted c hct

theorem resolveClaims_eq_none_iff (claims : List Claim) (context : ClaimContext) :
    resolveClaims claims context = none ↔
      claims.filter (validClaim context) = [] := by
  rw [resolveClaims_eq]
  rw [List.head?_eq_none_iff]
  constructor
  · intro h
    have hp := List.perm_insertionSort claimLE (claims.filter (validClaim context))
    rw [h] at hp
    exact hp.symm.eq_nil
  · intro h
    rw [h]
    rfl

/-! ## C1 -/

/-- C1: `calculatePoints` returns 0 below 3 Faan, `2^(faan-3)` for 3..12 Faan,
and the capped limit 32 from 13 Faan on; in particular 12 Faan is worth 512
points while 13 or more Faan is worth only 32. -/
theorem calculatePoints_spec :
    (∀ faan : Int,
      (faan < 3 → calculatePoints faan = 0) ∧
      (3 ≤ faan → faan ≤ 12 → calculatePoints faan = 2 ^ (faan - 3).toNat) ∧
      (13 ≤ faan → calculatePoints faan = 32)) ∧
    calculatePoints 12 = 512 ∧ calculatePoints 13 = 32 := by
  refine ⟨fun faan => ⟨?_, ?_, ?_⟩, by decide, by decide⟩
  · intro h
    simp [calculatePoints, MIN_FAAN, h]
  · intro h3 h12
    rw [calculatePoints]
    simp only [MIN_FAAN]
    rw [if_neg (by omega), if_neg (by omega)]
  · intro h
    rw [calculatePoints]
    simp only [MIN_FAAN]
    rw [if_neg (by omega), if_pos (by omega)]
    rfl

/-- Witness for C1 at Faan values 2, 7 and 14. -/
theorem calculatePoints_spec_witness :
    calculatePoints 2 = 0 ∧ calculatePoints 7 = 16 ∧ calculatePoints 14 = 32 :=
  ⟨(calculatePoints_spec.1 2).1 (by decide),
   ((calculatePoints_spec.1 7).2.1 (by decide) (by decide)).trans (by decide),
   (calculatePoints_spec.1 14).2.2 (by decide)⟩

/-! ## C2 -/

/-- C2: `resolveClaims` returns a surviving valid claim that is minimal for
priority then counter-clockwise distance, returns null when no valid claim
exists, always prefers a WIN claim over lower-priority claims when priorities
are assigned by claim type, and in the concrete spec scenario a WIN at
distance 2 beats a PUNG at distance 1. -/
theorem resolveClaims_priority_distance :
    (∀ claims context w, resolveClaims claims context = some w →
      w ∈ claims.filter (validClaim context) ∧
      ∀ c ∈ claims.filter (validClaim context),
        w.priority < c.priority ∨
          (w.priority = c.priority ∧ w.distance ≤ c.distance)) ∧
    (∀ claims context, resolveClaims claims context = none ↔
      claims.filter (validClaim context) = []) ∧
    (∀ claims context w,
      (∀ c ∈ claims, c.priority = getClaimPriority c.type) →
      resolveClaims claims context = some w →
      (∃ c ∈ claims.filter (validClaim context), c.type = ClaimType.WIN) →
      w.type = ClaimType.WIN) ∧
    resolveClaims [winSeat2Claim, pungSeat1Claim] discardFromSeat0 =
      some winSeat2Claim := by
  refine ⟨?_, ?_, ?_, by decide⟩
  · intro claims context w h
    exact ⟨resolveClaims_mem h, resolveClaims_min h⟩
  · exact fun claims context => resolveClaims_eq_none_iff claims context
  · intro claims context w hprio h hwin
    obtain ⟨c, hc, hcty⟩ := hwin
    have hle := resolveClaims_min h c hc
    have hcprio : c.priority = 1 := by
      rw [hprio c (List.mem_of_mem_filter hc), hcty]
      rfl
    have hwmem : w ∈ claims := List.mem_of_mem_filter (resolveClaims_mem h)
    have hwprio : w.priority = getClaimPriority w.type := hprio w hwmem
    rcases hty : w.type with _ | _ | _ | _
    · rfl
    all_goals
      exfalso
      rw [claimLE, hcprio, hwprio, hty] at hle
      simp only [getClaimPriority] at hle
      omega

/-- Witness for C2: in the concrete scenario the returned WIN claim is in the
valid set and minimal for priority then distance. -/
theorem resolveClaims_priority_distance_witness :
    winSeat2Claim ∈ [winSeat2Claim, pungSeat1Claim].filter (validClaim discardFromSeat0) ∧
    ∀ c ∈ [winSeat2Claim, pungSeat1Claim].filter (validClaim discardFromSeat0),
      winSeat2Claim.priority < c.priority ∨
        (winSeat2Claim.priority = c.priority ∧ winSeat2Claim.distance ≤ c.distance) :=
  resolveClaims_priority_distance.1 [winSeat2Claim, pungSeat1Claim]
    discardFromSeat0 winSeat2Claim (by decide)

/-! ## C3 -/

/-- C3: `resolveClaims` never returns a WIN claim whose claimant is in Furiten,
whatever the claim's Faan value: the filter rejects such claims before the
Faan test is even consulted. -/
theorem resolveClaims_furiten_gate :
    ∀ claims context w, resolveClaims claims context = some w →
      w.type = ClaimType.WIN → w.player.isFuriten = false := by
  intro claims context w h hty
  have hv := (List.mem_filter.mp (resolveClaims_mem h)).2
  by_contra hf
  rw [Bool.not_eq_false] at hf
  rw [validClaim, hty, hf] at hv
  exact absurd hv (by simp)

/-- Witness for C3 at the concrete scenario. -/
theorem resolveClaims_furiten_gate_witness :
    winSeat2Claim.player.isFuriten = false :=
  resolveClaims_furiten_gate [winSeat2Claim, pungSeat1Claim] discardFromSeat0
    winSeat2Claim (by decide) (by decide)

/-! ## C9 -/

/-- C9 counterexample: a PUNG claim and a KONG claim from the same seat tie on
both priority and distance; arrival order then decides, so the two orderings
of the same claim set resolve to different claims. -/
theorem resolveClaims_order_dependent :
    [pungSeat1Claim, kongSeat1Claim].Perm [kongSeat1Claim, pungSeat1Claim] ∧
    resolveClaims [pungSeat1Claim, kongSeat1Claim] discardFromSeat0 ≠
      resolveClaims [kongSeat1Claim, pungSeat1Claim] discardFromSeat0 := by
  constructor
  · exact List.Perm.swap _ _ _
  · decide

/-- C9 (amended): permuting the claim list preserves whether a claim survives
and the surviving claim's priority and distance; the surviving claim itself is
preserved whenever no two distinct valid claims tie on both priority and
distance. -/
theorem resolveClaims_perm_invariant :
    ∀ (l₁ l₂ : List Claim) (context : ClaimContext), l₁.Perm l₂ →
      (resolveClaims l₁ context = none ↔ resolveClaims l₂ context = none) ∧
      (∀ w₁ w₂, resolveClaims l₁ context = some w₁ →
        resolveClaims l₂ context = some w₂ →
        w₁.priority = w₂.priority ∧ w₁.distance = w₂.distance ∧
        ((∀ a ∈ l₁.filter (validClaim context), ∀ b ∈ l₁.filter (validClaim context),
            a.priority = b.priority → a.distance = b.distance → a = b) →
          w₁ = w₂)) := by
  intro l₁ l₂ context hperm
  have hfilter : (l₁.filter (validClaim context)).Perm (l₂.filter (validClaim context)) :=
    hperm.filter _
  constructor
  · rw [resolveClaims_eq_none_iff, resolveClaims_eq_none_iff]
    constructor
    · intro h; rw [h] at hfilter; exact hfilter.symm.eq_nil
    · intro h; rw [h] at hfilter; exact hfilter.eq_nil
  · intro w₁ w₂ h₁ h₂
    have hm₁ : w₁ ∈ l₁.filter (validClaim context) := resolveClaims_mem h₁
    have hm₂ : w₂ ∈ l₁.filter (validClaim context) :=
      hfilter.mem_iff.mpr (resolveClaims_mem h₂)
    have hle₁₂ : claimLE w₁ w₂ := resolveClaims_min h₁ w₂ hm₂
    have hle₂₁ : claimLE w₂ w₁ :=
      resolveClaims_min h₂ w₁ (hfilter.mem_iff.mp hm₁)
    have hkey : w₁.priority = w₂.priority ∧ w₁.distance = w₂.distance := by
      rw [claimLE] at hle₁₂ hle₂₁; omega
    exact ⟨hkey.1, hkey.2, fun huniq => huniq w₁ hm₁ w₂ hm₂ hkey.1 hkey.2⟩

/-- Witness for C9's amended statement at a concrete permutation pair with a
unique minimal claim. -/
theorem resolveClaims_perm_invariant_witness :
    winSeat2Claim.priority = winSeat2Claim.priority ∧
    winSeat2Claim.distance = winSeat2Claim.distance ∧
    winSeat2Claim = winSeat2Claim := by
  have h := (resolveClaims_perm_invariant [winSeat2Claim, pungSeat1Claim]
    [pungSeat1Claim, winSeat2Claim] discardFromSeat0 (List.Perm.swap _ _ _)).2
    winSeat2Claim winSeat2Claim (by decide) (by decide)
  exact ⟨h.1, h.2.1, h.2.2 (by decide)⟩

/-! ## C4 -/

/-- C4: `updateFuriten` sets the flag and records the declined tile and turn on
`DECLINE_WIN`, unconditionally clears the flag on `DISCARD`, and leaves the
flag unchanged on every other action type. -/
theorem updateFuriten_spec :
    ∀ (player : FPlayer) (action : FAction),
      (action.type = FActionType.DECLINE_WIN →
        (updateFuriten player action).isFuriten = true ∧
        (updateFuriten player action).furitenState = some
          { isActive := true,
            declinedTiles :=
              (player.furitenState.getD initFuritenState).declinedTiles ++
                [⟨action.tile, action.turn⟩],
            activatedTurn := action.turn }) ∧
      (action.type = FActionType.DISCARD →
        (updateFuriten player action).isFuriten = false) ∧
      (action.type ≠ FActionType.DECLINE_WIN →
        action.type ≠ FActionType.DISCARD →
        (updateFuriten player action).isFuriten = player.isFuriten) := by
  intro player action
  refine ⟨?_, ?_, ?_⟩
  · intro h
    rw [updateFuriten]
    simp [h]
  · intro h
    rw [updateFuriten]
    simp [h]
  · intro h1 h2
    rw [updateFuriten]
    simp [h1, h2]

/-- A player who has never entered Furiten. -/
def freshFPlayer : FPlayer := { isFuriten := false, furitenState := none }

/-- Declining a winning East wind on turn 5. -/
def declineWinAction : FAction :=
  { type := FActionType.DECLINE_WIN, tile := some (windTile Wind.E 0), turn := some 5 }

/-- Witness for C4: a decline raises the flag and records the tile, a discard
clears it, a draw leaves it alone. -/
theorem updateFuriten_spec_witness :
    (updateFuriten freshFPlayer declineWinAction).isFuriten = true ∧
    (updateFuriten freshFPlayer declineWinAction).furitenState = some
      { isActive := true,
        declinedTiles :=
          (freshFPlayer.furitenState.getD initFuritenState).declinedTiles ++
            [⟨declineWinAction.tile, declineWinAction.turn⟩],
        activatedTurn := declineWinAction.turn } ∧
    (updateFuriten freshFPlayer { type := FActionType.DISCARD }).isFuriten = false ∧
    (updateFuriten freshFPlayer { type := FActionType.DRAW }).isFuriten =
      freshFPlayer.isFuriten :=
  ⟨((updateFuriten_spec freshFPlayer declineWinAction).1 rfl).1,
   ((updateFuriten_spec freshFPlayer declineWinAction).1 rfl).2,
   (updateFuriten_spec freshFPlayer { type := FActionType.DISCARD }).2.1 rfl,
   (updateFuriten_spec freshFPlayer { type := FActionType.DRAW }).2.2
     (by decide) (by decide)⟩

/-! ## C7 -/

/-- Meld counting over a list with only the four recognised meld types:
4 tiles per kong (also counted as a kong), 3 per pung/chow. -/
theorem countMeldTiles_known (melds : List Meld)
    (h : ∀ m ∈ melds, m.type = MeldType.CHOW ∨ m.type = MeldType.PUNG ∨
      m.type = MeldType.KONG ∨ m.type = MeldType.CONCEALED_KONG) :
    countMeldTiles melds = some
      (4 * melds.countP (fun m => m.type == MeldType.KONG ||
          m.type == MeldType.CONCEALED_KONG) +
        3 * melds.countP (fun m => m.type == MeldType.PUNG ||
          m.type == MeldType.CHOW),
       melds.countP (fun m => m.type == MeldType.KONG ||
          m.type == MeldType.CONCEALED_KONG)) := by
  induction melds with
  | nil => simp [countMeldTiles]
  | cons m rest ih =>
    have hrest := ih (fun x hx => h x (List.mem_cons_of_mem m hx))
    rcases h m (List.mem_cons_self m rest) with h1 | h1 | h1 | h1 <;>
      simp [countMeldTiles, h1, hrest, List.countP_cons] <;> ring

/-- C7: for a hand whose exposed melds are all chows, pungs, kongs or concealed
kongs, `validateWinCount` accepts exactly when the concealed count plus 4 per
kong meld and 3 per pung/chow meld equals `14 +` the number of kong melds. -/
theorem validateWinCount_spec :
    ∀ hand : Hand,
      (∀ m ∈ hand.exposed, m.type = MeldType.CHOW ∨ m.type = MeldType.PUNG ∨
        m.type = MeldType.KONG ∨ m.type = MeldType.CONCEALED_KONG) →
      (validateWinCount hand = some true ↔
        hand.concealed.length
          + 4 * hand.exposed.countP (fun m => m.type == MeldType.KONG ||
              m.type == MeldType.CONCEALED_KONG)
          + 3 * hand.exposed.countP (fun m => m.type == MeldType.PUNG ||
              m.type == MeldType.CHOW)
          = 14 + hand.exposed.countP (fun m => m.type == MeldType.KONG ||
              m.type == MeldType.CONCEALED_KONG)) := by
  intro hand h
  rw [validateWinCount, countMeldTiles_known hand.exposed h]
  simp only [Option.map_some', Option.some.injEq, beq_iff_eq]
  omega

/-- A hand of 8 concealed tiles, one exposed kong and one exposed pung:
8 + 4 + 3 = 15 = 14 + 1. -/
def kongPungHand : Hand :=
  { concealed := List.replicate 8 (suitedTile 1 Suit.B 0),
    exposed :=
      [{ type := MeldType.KONG, tiles := List.replicate 4 (suitedTile 2 Suit.B 0) },
       { type := MeldType.PUNG, tiles := List.replicate 3 (suitedTile 3 Suit.B 0) }] }

/-- Witness for C7 at the concrete kong-plus-pung hand. -/
theorem validateWinCount_spec_witness : validateWinCount kongPungHand = some true :=
  (validateWinCount_spec kongPungHand (by decide)).mpr (by decide)

/-! ## Counting lemmas shared by the special-hand proofs -/

theorem countP_eq_one_iff {α : Type} [DecidableEq α] {l : List α}
    (hnd : l.Nodup) (p : α → Bool) :
    l.countP p = 1 ↔ (∃! k, k ∈ l ∧ p k = true) := by
  rw [List.countP_eq_length_filter]
  constructor
  · intro h
    obtain ⟨a, ha⟩ := List.length_eq_one.mp h
    have hmem : a ∈ l.filter p := by
      rw [ha]; exact List.mem_cons_self a []
    refine ⟨a, ⟨(List.mem_filter.mp hmem).1, (List.mem_filter.mp hmem).2⟩, ?_⟩
    intro b hb
    have hb2 : b ∈ l.filter p := List.mem_filter.mpr ⟨hb.1, hb.2⟩
    rw [ha] at hb2
    simpa using hb2
  · rintro ⟨a, ⟨hal, hap⟩, huniq⟩
    have hmem : a ∈ l.filter p := List.mem_filter.mpr ⟨hal, hap⟩
    have hsub : ∀ b ∈ l.filter p, b = a := fun b hb =>
      huniq b ⟨(List.mem_filter.mp hb).1, (List.mem_filter.mp hb).2⟩
    have hnd2 : (l.filter p).Nodup := hnd.filter p
    cases hf : l.filter p with
    | nil => rw [hf] at hmem; exact absurd hmem (by simp)
    | cons x t =>
      rw [hf] at hsub hnd2
      cases t with
      | nil => rfl
      | cons y u =>
        have hx : x = a := hsub x (by simp)
        have hy : y = a := hsub y (by simp)
        rw [hx, hy] at hnd2
        exact absurd hnd2 (by simp)

theorem sum_count_dedup {α : Type} [DecidableEq α] (l : List α) :
    (l.dedup.map (fun a => l.count a)).sum = l.length := by
  have h := Multiset.toFinset_sum_count_eq (l : Multiset α)
  simp only [Multiset.coe_count, Multiset.coe_card] at h
  exact h

theorem sum_split_filter {α : Type} (d : List α) (f : α → Nat) (p : α → Bool) :
    (d.map f).sum =
      ((d.filter p).map f).sum + ((d.filter (fun a => !p a)).map f).sum := by
  induction d with
  | nil => rfl
  | cons a t ih =>
    by_cases h : p a <;> simp [h, ih] <;> omega

theorem length_split_filter {α : Type} (d : List α) (p : α → Bool) :
    d.length = (d.filter p).length + (d.filter (fun a => !p a)).length := by
  induction d with
  | nil => rfl
  | cons a t ih =>
    by_cases h : p a <;> simp [h, ih] <;> omega

theorem sum_const_of_all {α : Type} (d : List α) (f : α → Nat) (c : Nat)
    (h : ∀ a ∈ d, f a = c) : (d.map f).sum = c * d.length := by
  induction d with
  | nil => simp
  | cons a t ih =>
    have ha := h a (List.mem_cons_self a t)
    have ht := ih (fun x hx => h x (List.mem_cons_of_mem a hx))
    simp only [List.map_cons, List.sum_cons, List.length_cons, Nat.mul_succ]
    omega

theorem length_le_sum {α : Type} (d : List α) (f : α → Nat)
    (h : ∀ a ∈ d, 0 < f a) : d.length ≤ (d.map f).sum := by
  induction d with
  | nil => simp
  | cons a t ih =>
    have ha := h a (List.mem_cons_self a t)
    have ht := ih (fun x hx => h x (List.mem_cons_of_mem a hx))
    simp only [List.map_cons, List.sum_cons, List.length_cons]
    omega

/-- A 14-element multiset with exactly 7 distinct values of count exactly 2
consists of exactly 7 distinct values, each of count exactly 2. -/
theorem seven_pairs_core {α : Type} [DecidableEq α] (l : List α)
    (hlen : l.length = 14)
    (h : l.dedup.countP (fun k => l.count k == 2) = 7) :
    l.dedup.length = 7 ∧ ∀ k ∈ l.dedup, l.count k = 2 := by
  have hsplitS := sum_split_filter l.dedup (fun a => l.count a)
    (fun k => l.count k == 2)
  have hsplitL := length_split_filter l.dedup (fun k => l.count k == 2)
  have hsum : (l.dedup.map (fun a => l.count a)).sum = 14 := by
    rw [sum_count_dedup]; exact hlen
  have hA : ∀ a ∈ l.dedup.filter (fun k => l.count k == 2), l.count a = 2 := by
    intro a ha
    have h2 := (List.mem_filter.mp ha).2
    simpa using h2
  have hSA := sum_const_of_all
    (l.dedup.filter (fun k => l.count k == 2)) (fun a => l.count a) 2 hA
  have hcount : (l.dedup.filter (fun k => l.count k == 2)).length = 7 := by
    rw [← List.countP_eq_length_filter]; exact h
  have hBpos : ∀ a ∈ l.dedup.filter (fun k => !(l.count k == 2)), 0 < l.count a := by
    intro a ha
    have ha2 : a ∈ l := List.mem_dedup.mp (List.mem_filter.mp ha).1
    exact List.count_pos_iff.mpr ha2
  have hlB := length_le_sum
    (l.dedup.filter (fun k => !(l.count k == 2))) (fun a => l.count a) hBpos
  have hBzero : (l.dedup.filter (fun k => !(l.count k == 2))).length = 0 := by
    omega
  refine ⟨by omega, ?_⟩
  intro k hk
  by_cases hpk : (l.count k == 2) = true
  · simpa using hpk
  · exfalso
    have hmem : k ∈ l.dedup.filter (fun k => !(l.count k == 2)) :=
      List.mem_filter.mpr ⟨hk, by simp [hpk]⟩
    rw [List.length_eq_zero.mp hBzero] at hmem
    exact absurd hmem (by simp)

/-! ## C5 -/

/-- The thirteen orphan kinds, one tile of each. -/
def orphanThirteen : List Tile :=
  [suitedTile 1 Suit.B 0, suitedTile 9 Suit.B 0,
   suitedTile 1 Suit.C 0, suitedTile 9 Suit.C 0,
   suitedTile 1 Suit.D 0, suitedTile 9 Suit.D 0,
   windTile Wind.E 0, windTile Wind.S 0, windTile Wind.W 0, windTile Wind.N 0,
   dragonTile Dragon.RED 0, dragonTile Dragon.GREEN 0, dragonTile Dragon.WHITE 0]

/-- The spec's accepted hand: all thirteen kinds with E duplicated. -/
def orphansDupE : Hand :=
  { concealed := orphanThirteen ++ [windTile Wind.E 1], exposed := [] }

/-- The thirteen kinds plus a foreign 2B as 14th tile. -/
def orphansForeign14th : Hand :=
  { concealed := orphanThirteen ++ [suitedTile 2 Suit.B 0], exposed := [] }

/-- Twelve of the kinds (WHITE missing) with both E and S duplicated. -/
def orphansTwoDups : Hand :=
  { concealed := orphanThirteen.take 12 ++ [windTile Wind.E 1, windTile Wind.S 1],
    exposed := [] }

/-- C5: `isThirteenOrphans` accepts exactly the fully concealed 14-tile hands
containing every one of the 13 orphan kinds with exactly one of them
duplicated; the spec's concrete accept/reject vectors behave as stated. -/
theorem isThirteenOrphans_spec :
    (∀ hand : Hand, isThirteenOrphans hand = true ↔
      (hand.exposed = [] ∧ hand.concealed.length = 14 ∧
       (∀ k ∈ orphanRequired, 0 < (hand.concealed.map orphanKey).count k) ∧
       (∃! k, k ∈ orphanRequired ∧ (hand.concealed.map orphanKey).count k = 2))) ∧
    isThirteenOrphans orphansDupE = true ∧
    isThirteenOrphans orphansForeign14th = false ∧
    isThirteenOrphans orphansTwoDups = false := by
  refine ⟨fun hand => ?_, by decide, by decide, by decide⟩
  simp only [isThirteenOrphans]
  by_cases h1 : hand.exposed.length > 0
  · rw [if_pos h1]
    constructor
    · intro h
      exact absurd h (by simp)
    · rintro ⟨he, -⟩
      rw [he] at h1
      exact absurd h1 (by simp)
  · rw [if_neg h1]
    have he : hand.exposed = [] := by
      cases hx : hand.exposed with
      | nil => rfl
      | cons a t => exact absurd (by rw [hx]; simp) h1
    by_cases h2 : hand.concealed.length ≠ 14
    · rw [if_pos h2]
      constructor
      · intro h
        exact absurd h (by simp)
      · rintro ⟨-, hl, -⟩
        exact absurd hl h2
    · rw [if_neg h2]
      push_neg at h2
      by_cases h3 : orphanRequired.all
          (fun k => (hand.concealed.map orphanKey).count k != 0) = true
      · rw [if_pos h3]
        have hpos : ∀ k ∈ orphanRequired,
            0 < (hand.concealed.map orphanKey).count k := by
          intro k hk
          have hx := List.all_eq_true.mp h3 k hk
          simp only [bne_iff_ne, ne_eq] at hx
          omega
        constructor
        · intro h
          refine ⟨he, h2, hpos, ?_⟩
          have h4 : orphanRequired.countP
              (fun k => (hand.concealed.map orphanKey).count k == 2) = 1 := by
            simpa using h
          obtain ⟨a, ⟨ha1, ha2⟩, hu⟩ := (countP_eq_one_iff (by decide) _).mp h4
          exact ⟨a, ⟨ha1, by simpa using ha2⟩,
            fun b hb => hu b ⟨hb.1, by simpa using hb.2⟩⟩
        · rintro ⟨-, -, -, hex⟩
          have h4 : orphanRequired.countP
              (fun k => (hand.concealed.map orphanKey).count k == 2) = 1 := by
            apply (countP_eq_one_iff (by decide) _).mpr
            obtain ⟨a, ⟨ha1, ha2⟩, hu⟩ := hex
            exact ⟨a, ⟨ha1, by simpa using ha2⟩,
              fun b hb => hu b ⟨hb.1, by simpa using hb.2⟩⟩
          simp [h4]
      · rw [if_neg h3]
        constructor
        · intro h
          exact absurd h (by simp)
        · rintro ⟨-, -, hpos, -⟩
          apply absurd _ h3
          apply List.all_eq_true.mpr
          intro k hk
          have hx := hpos k hk
          simp only [bne_iff_ne, ne_eq]
          omega

/-- Witness for C5: the accepted hand satisfies the right-hand side, extracted
through the equivalence. -/
theorem isThirteenOrphans_spec_witness :
    orphansDupE.exposed = [] ∧ orphansDupE.concealed.length = 14 ∧
    (∀ k ∈ orphanRequired, 0 < (orphansDupE.concealed.map orphanKey).count k) ∧
    (∃! k, k ∈ orphanRequired ∧ (orphansDupE.concealed.map orphanKey).count k = 2) :=
  (isThirteenOrphans_spec.1 orphansDupE).mp (by decide)

/-! ## C6 -/

/-- Seven distinct kinds, two tiles of each. -/
def sevenPairsHand : Hand :=
  { exposed := [],
    concealed :=
      [suitedTile 1 Suit.B 0, suitedTile 1 Suit.B 1,
       suitedTile 2 Suit.B 0, suitedTile 2 Suit.B 1,
       suitedTile 3 Suit.C 0, suitedTile 3 Suit.C 1,
       suitedTile 4 Suit.D 0, suitedTile 4 Suit.D 1,
       windTile Wind.E 0, windTile Wind.E 1,
       windTile Wind.S 0, windTile Wind.S 1,
       dragonTile Dragon.RED 0, dragonTile Dragon.RED 1] }

/-- A quad of 1B plus five pairs: 14 tiles, but the quad is not two pairs. -/
def quadHand : Hand :=
  { exposed := [],
    concealed :=
      [suitedTile 1 Suit.B 0, suitedTile 1 Suit.B 1,
       suitedTile 1 Suit.B 2, suitedTile 1 Suit.B 3,
       suitedTile 2 Suit.B 0, suitedTile 2 Suit.B 1,
       suitedTile 3 Suit.C 0, suitedTile 3 Suit.C 1,
       suitedTile 4 Suit.D 0, suitedTile 4 Suit.D 1,
       windTile Wind.E 0, windTile Wind.E 1,
       windTile Wind.S 0, windTile Wind.S 1] }

/-- C6: `isSevenPairs` accepts exactly the fully concealed 14-tile hands with
exactly 7 distinct tile kinds each appearing exactly twice; a hand containing
a quad is rejected. -/
theorem isSevenPairs_spec :
    (∀ hand : Hand, isSevenPairs hand = true ↔
      (hand.exposed = [] ∧ hand.concealed.length = 14 ∧
       (hand.concealed.map getTileKey).dedup.length = 7 ∧
       ∀ k ∈ (hand.concealed.map getTileKey).dedup,
         (hand.concealed.map getTileKey).count k = 2)) ∧
    isSevenPairs sevenPairsHand = true ∧
    isSevenPairs quadHand = false := by
  refine ⟨fun hand => ?_, by decide, by decide⟩
  simp only [isSevenPairs]
  by_cases h1 : hand.exposed.length > 0
  · rw [if_pos h1]
    constructor
    · intro h
      exact absurd h (by simp)
    · rintro ⟨he, -⟩
      rw [he] at h1
      exact absurd h1 (by simp)
  · rw [if_neg h1]
    have he : hand.exposed = [] := by
      cases hx : hand.exposed with
      | nil => rfl
      | cons a t => exact absurd (by rw [hx]; simp) h1
    by_cases h2 : hand.concealed.length ≠ 14
    · rw [if_pos h2]
      constructor
      · intro h
        exact absurd h (by simp)
      · rintro ⟨-, hl, -⟩
        exact absurd hl h2
    · rw [if_neg h2]
      push_neg at h2
      have hlen : (hand.concealed.map getTileKey).length = 14 := by
        rw [List.length_map]; exact h2
      constructor
      · intro h
        have h4 : (hand.concealed.map getTileKey).dedup.countP
            (fun k => (hand.concealed.map getTileKey).count k == 2) = 7 := by
          simpa using h
        obtain ⟨hd7, hall⟩ := seven_pairs_core _ hlen h4
        exact ⟨he, h2, hd7, hall⟩
      · rintro ⟨-, -, hd7, hall⟩
        have h4 : (hand.concealed.map getTileKey).dedup.countP
            (fun k => (hand.concealed.map getTileKey).count k == 2) =
              (hand.concealed.map getTileKey).dedup.length := by
          apply List.countP_eq_length.mpr
          intro a ha
          simpa using hall a ha
        rw [h4, hd7]
        simp

/-- Witness for C6: the seven-pairs hand satisfies the right-hand side,
extracted through the equivalence. -/
theorem isSevenPairs_spec_witness :
    sevenPairsHand.exposed = [] ∧ sevenPairsHand.concealed.length = 14 ∧
    (sevenPairsHand.concealed.map getTileKey).dedup.length = 7 ∧
    ∀ k ∈ (sevenPairsHand.concealed.map getTileKey).dedup,
      (sevenPairsHand.concealed.map getTileKey).count k = 2 :=
  (isSevenPairs_spec.1 sevenPairsHand).mp (by decide)

/-! ## C8 -/

/-- A bare player record for seat `i`. -/
def basePlayer (i : Nat) : HPlayer :=
  { id := "p" ++ toString i, name := "P" ++ toString i, isAI := false,
    wind := Wind.E, position := i, concealed := [], exposed := [],
    discards := [], score := 0, isFuriten := false, furitenTile := none,
    lastDraw := none }

/-- A state in which seat 0 is to act, holds one 5B with no exposed pung of it,
and exactly one tile remains in the dead wall. -/
def kongBugState : HGameState :=
  { gameId := "g1", state := GamePhase.PLAYING, prevailingWind := Wind.E,
    dealerPosition := 0, currentPlayer := 0, currentRound := 1,
    consecutiveDraws := 0, liveWall := [], deadWall := [suitedTile 7 Suit.C 0],
    drawPointer := 0,
    players := fun i =>
      if i = (0 : Fin 4) then
        { basePlayer 0 with concealed := [suitedTile 5 Suit.B 0] }
      else basePlayer i.val,
    pendingClaims := [], lastDiscard := none, lastDiscarder := none,
    moveHistory := [], discardHistory := [] }

/-- C8 fails on the code: an ADDED kong with no pung to upgrade is rejected,
yet the rejected call has already consumed the dead-wall replacement tile,
because `executeKong` draws via `handleKong` before validating the upgrade.
The rejected-discard paths, by contrast, leave the state untouched. -/
theorem executeKong_rejected_consumes_deadwall :
    (executeKong kongBugState 0 KongType.ADDED (suitedTile 5 Suit.B 0) 0).1.success
      = false ∧
    (executeKong kongBugState 0 KongType.ADDED (suitedTile 5 Suit.B 0) 0).1.reason
      = some "No pung found to upgrade" ∧
    kongBugState.deadWall.length = 1 ∧
    (executeKong kongBugState 0 KongType.ADDED (suitedTile 5 Suit.B 0) 0).2.deadWall.length
      = 0 ∧
    (executeDiscard kongBugState 1 (suitedTile 5 Suit.B 0) 0).1.success = false ∧
    (executeDiscard kongBugState 1 (suitedTile 5 Suit.B 0) 0).2 = kongBugState ∧
    (executeDiscard kongBugState 0 (suitedTile 9 Suit.B 0) 0).1.success = false ∧
    (executeDiscard kongBugState 0 (suitedTile 9 Suit.B 0) 0).2 = kongBugState :=
  ⟨rfl, rfl, rfl, rfl, rfl, rfl, rfl, rfl⟩

/-! ## C10 -/

/-- Agreement of two players on every publicly projected field, with equal
concealed-hand length but possibly different concealed tiles. -/
def samePublicView (p q : HPlayer) : Prop :=
  p.id = q.id ∧ p.name = q.name ∧ p.isAI = q.isAI ∧ p.wind = q.wind ∧
  p.position = q.position ∧ p.concealed.length = q.concealed.length ∧
  p.exposed = q.exposed ∧ p.discards = q.discards ∧ p.score = q.score ∧
  p.isFuriten = q.isFuriten

instance (p q : HPlayer) : Decidable (samePublicView p q) := by
  unfold samePublicView
  infer_instance

/-- C10: the public game state reveals concealed hands only as counts - two
states agreeing on everything public, with concealed hands of equal length,
produce identical public outputs - while the private per-seat view's
`concealed` field is exactly that seat's own concealed tiles. -/
theorem publicState_redaction :
    (∀ g1 g2 : HGameState,
      g1.gameId = g2.gameId → g1.state = g2.state →
      g1.currentRound = g2.currentRound →
      g1.prevailingWind = g2.prevailingWind →
      g1.currentPlayer = g2.currentPlayer →
      g1.dealerPosition = g2.dealerPosition →
      g1.liveWall = g2.liveWall → g1.deadWall = g2.deadWall →
      g1.lastDiscard = g2.lastDiscard → g1.lastDiscarder = g2.lastDiscarder →
      (∀ i : Fin 4, samePublicView (g1.players i) (g2.players i)) →
      getPublicGameState g1 = getPublicGameState g2) ∧
    (∀ (g : HGameState) (seat : Fin 4),
      (getPrivatePlayerState g seat).concealed = (g.players seat).concealed) := by
  constructor
  · intro g1 g2 h1 h2 h3 h4 h5 h6 h7 h8 h9 h10 hp
    have hpp : ∀ i : Fin 4, publicPlayer (g1.players i) = publicPlayer (g2.players i) := by
      intro i
      obtain ⟨e1, e2, e3, e4, e5, e6, e7, e8, e9, e10⟩ := hp i
      rw [publicPlayer, publicPlayer, e1, e2, e3, e4, e5, e6, e7, e8, e9, e10]
    rw [getPublicGameState, getPublicGameState,
      h1, h2, h3, h4, h5, h6, h7, h8, h9, h10]
    congr 1
    exact List.map_congr_left (fun i _ => hpp i)
  · intro g seat
    rfl

/-- Two states that differ only in the identity of seat 0's single concealed
tile (a different physical copy of 1B). -/
def redactionStateA : HGameState :=
  { kongBugState with
    players := fun i =>
      if i = (0 : Fin 4) then
        { basePlayer 0 with concealed := [suitedTile 1 Suit.B 0] }
      else basePlayer i.val }

/-- Companion state to `redactionStateA` holding a different copy of 1B. -/
def redactionStateB : HGameState :=
  { kongBugState with
    players := fun i =>
      if i = (0 : Fin 4) then
        { basePlayer 0 with concealed := [suitedTile 1 Suit.B 1] }
      else basePlayer i.val }

/-- Witness for C10: the two states have identical public projections while
their seat-0 private views reveal the differing concealed tiles. -/
theorem publicState_redaction_witness :
    getPublicGameState redactionStateA = getPublicGameState redactionStateB ∧
    (getPrivatePlayerState redactionStateA 0).concealed =
      (redactionStateA.players 0).concealed :=
  ⟨publicState_redaction.1 redactionStateA redactionStateB
      rfl rfl rfl rfl rfl rfl rfl rfl rfl rfl (by decide),
   publicState_redaction.2 redactionStateA 0⟩

end Mahjong
